import Mathlib

/-!
Verification of the diary content-organization client.

The definitions below are a shallow embedding of the TypeScript source:

* `types.ts` — the `ContentType` / `ContentItem` data model and the
  supabase content-store gateway (`updateMultipleContentItems`,
  `subscribeToContentItems`), modelled as pure state transformers;
* `services/geminiService.ts` — the AI gateway calls
  (`categorizeAndTagContent`, `organizeContent`); remote model output is
  passed in as an explicit oracle value, since the remote call itself is
  an external effect;
* `App.tsx` (`handleAddItem`) — the background enrichment pipeline;
* `ContentCard.tsx` (`handleAddTag`) — the user tag-addition handler;
* `DashboardPage.tsx` (`handleOrganize`) — the batch-organize caller.

Theorems then settle the spec claims about these functions.
-/

namespace Diary

/-- Content type tag, from `types.ts` (`ContentType`). -/
inductive ContentType
  | text
  | image
  | audio
  | url
  | ai_image
deriving DecidableEq, Repr

/-- Printable name of a content type, used in error messages. -/
def ContentType.name : ContentType → String
  | .text => "text"
  | .image => "image"
  | .audio => "audio"
  | .url => "url"
  | .ai_image => "ai_image"

/-- JavaScript truthiness of an optional string: `undefined` and the empty
string are falsy, every other string is truthy. -/
def jsTruthy : Option String → Bool
  | none => false
  | some s => !(s == "")

/-- The duplicate-removing filter from `App.tsx` line 114:
`a.filter((v, i, a) => a.indexOf(v) === i)` keeps exactly the first
occurrence of each element. -/
def jsUniqueFilter (a : List String) : List String :=
  (a.enum.filter (fun p => a.indexOf p.2 == p.1)).map (fun p => p.2)

/-- The tag merge performed by the enrichment pipeline
(`App.tsx` line 114): `[...(newItem.tags || []), ...tags]` deduplicated
with `jsUniqueFilter`. -/
def mergeTags (oldTags newTags : List String) : List String :=
  jsUniqueFilter (oldTags ++ newTags)

/-- `ContentCard.handleAddTag` (ContentCard.tsx lines 157-166): given the
item's current tags and the raw tag-input text, returns the tags array
written by the issued update, or `none` when no update is issued (blank
input, or the tag is already present). -/
def handleAddTag (itemTags : Option (List String)) (tagInput : String) :
    Option (List String) :=
  if tagInput.trim = "" then none
  else if tagInput.trim.toLower ∈ itemTags.getD [] then none
  else some (itemTags.getD [] ++ [tagInput.trim.toLower])

/-- One tag-mutating operation on an item: a user addition through the
card's tag input, or the pipeline's merge of AI-returned tags (the merge
reads a snapshot `base` of the item's tags, possibly stale, exactly as
`handleAddItem` uses `newItem.tags`). -/
inductive TagOp
  | userAdd (input : String)
  | aiMerge (base newTags : List String)

/-- Apply one tag operation to the item's current tags (`none` = the
column was never written). -/
def applyTagOp (tags : Option (List String)) : TagOp → Option (List String)
  | TagOp.userAdd input =>
    match handleAddTag tags input with
    | some t => some t
    | none => tags
  | TagOp.aiMerge base newTags => some (mergeTags base newTags)

/-- Tags of an item after a sequence of tag operations, starting from a
freshly created item (which has no tags: `AddContentForm` never supplies
any). -/
def runTagOps (ops : List TagOp) : Option (List String) :=
  ops.foldl applyTagOp none

/-- Argument shape of `categorizeAndTagContent`
(geminiService.ts line 117): a content type, the content payload, and an
optional mime type. -/
structure CatInput where
  type : ContentType
  content : String
  mimeType : Option String := none
deriving DecidableEq, Repr

/-- Parsed structured response of the categorization model: the JSON
schema requires a string `category` and a string array `tags`; nothing in
the schema or the code constrains the length or the case of the tags. -/
structure CatResult where
  category : String
  tags : List String
deriving DecidableEq, Repr

/-- Error taxonomy of the categorization call: a `validation` error is
thrown locally before any model call (unsupported type, missing mime
type); an `ai` error stands for a model failure or unparsable structured
output. -/
inductive CatError
  | validation (msg : String)
  | ai (msg : String)
deriving DecidableEq, Repr

/-- `geminiService.categorizeAndTagContent` (geminiService.ts lines
116-177). The remote model call is external, so its outcome is passed in
as `modelResponse` (already parsed against the response schema). The
`text` arm sends the prompt and returns the parsed response unchanged;
the image arms first require a mime type; every other type — `url` and
`audio` — hits the `default` arm, which throws before any model call. -/
def categorizeAndTagContent (item : CatInput)
    (modelResponse : Except String CatResult) : Except CatError CatResult :=
  match item.type with
  | ContentType.text => modelResponse.mapError CatError.ai
  | ContentType.image | ContentType.ai_image =>
    match item.mimeType with
    | none =>
      Except.error (CatError.validation "Mime type is required for image analysis.")
    | some _ => modelResponse.mapError CatError.ai
  | _ =>
    Except.error (CatError.validation
      ("Unsupported content type for categorization: " ++ item.type.name))

/-- The application-side content item (types.ts `ContentItem`), with the
optional enrichment fields. -/
structure ContentItem where
  id : String
  type : ContentType
  content : String
  createdAt : String := ""
  category : Option String := none
  priority : Option Int := none
  aiAnalysis : Option String := none
  transcription : Option String := none
  summary : Option String := none
  tags : Option (List String) := none
  mimeType : Option String := none
deriving DecidableEq, Repr

/-- The `contentType` argument of `geminiService.summarizeContent`. -/
inductive SummarizeKind
  | text
  | audio
  | url
deriving DecidableEq, Repr

/-- One AI-gateway call issued by the enrichment pipeline, in issue
order. -/
inductive PipeCall
  | transcribe
  | summarize (kind : SummarizeKind)
  | categorize
deriving DecidableEq, Repr

/-- Outcomes of the external effects the background pipeline performs, in
program order: the binary fetch of the stored audio, the transcription
call, the URL summarization call, the categorization model call, and the
store write-back. Each is an `Except` because any of them can fail. -/
structure PipelineOracle where
  fetchOk : Except String Unit
  transcript : Except String String
  urlSummary : Except String String
  modelCat : Except String CatResult
  writeOk : Except String Unit
deriving Repr

/-- The single write-back issued by the pipeline
(`updatedItem` in App.tsx lines 111-119): always `id`, `category` and the
merged `tags`; `transcription`/`summary` only when their local variables
are truthy. -/
structure UpdatePayload where
  id : String
  category : String
  tags : List String
  transcription : Option String := none
  summary : Option String := none
deriving DecidableEq, Repr

/-- Tail of the pipeline shared by every content type (App.tsx lines
109-121): categorize the derived representation, build the write-back
payload, and commit it. Returns the calls issued from this point on and
the committed write (`none` when a step failed, since the surrounding
`catch` drops the error). -/
def pipelineFinish (newItem contentToAnalyze : ContentItem)
    (transcription summary : Option String)
    (callsBefore : List PipeCall) (o : PipelineOracle) :
    List PipeCall × Option UpdatePayload :=
  let calls := callsBefore ++ [PipeCall.categorize]
  match categorizeAndTagContent
      { type := contentToAnalyze.type, content := contentToAnalyze.content,
        mimeType := contentToAnalyze.mimeType } o.modelCat with
  | Except.error _ => (calls, none)
  | Except.ok r =>
    let payload : UpdatePayload :=
      { id := newItem.id
        category := r.category
        tags := mergeTags (newItem.tags.getD []) r.tags
        transcription := if jsTruthy transcription then transcription else none
        summary := if jsTruthy summary then summary else none }
    match o.writeOk with
    | Except.error _ => (calls, none)
    | Except.ok _ => (calls, some payload)

/-- The detached enrichment task spawned by `handleAddItem` (App.tsx
lines 89-127): audio is fetched and transcribed, URLs are summarized with
kind `url`, and in both cases `contentToAnalyze` becomes a `text` item
carrying the derived representation before categorization. Returns the
AI calls issued (in order) and the committed write-back, `none` when any
step failed. -/
def runPipeline (newItem : ContentItem) (o : PipelineOracle) :
    List PipeCall × Option UpdatePayload :=
  match newItem.type with
  | ContentType.audio =>
    match o.fetchOk with
    | Except.error _ => ([], none)
    | Except.ok _ =>
      match o.transcript with
      | Except.error _ => ([PipeCall.transcribe], none)
      | Except.ok t =>
        pipelineFinish newItem
          { newItem with content := t, type := ContentType.text }
          (some t) none [PipeCall.transcribe] o
  | ContentType.url =>
    match o.urlSummary with
    | Except.error _ => ([PipeCall.summarize SummarizeKind.url], none)
    | Except.ok s =>
      pipelineFinish newItem
        { newItem with content := s, type := ContentType.text }
        none (some s) [PipeCall.summarize SummarizeKind.url] o
  | _ => pipelineFinish newItem newItem none none [] o

/-- Observable outcome of one `handleAddItem` call: the item the create
returned (shown immediately in the UI), whether the UI error banner was
set, the background tasks spawned (one entry per task, carrying the item
it enriches), the AI calls that task issued, and the write it committed.
-/
structure AddOutcome where
  created : Option ContentItem
  uiError : Bool
  pipelineTasks : List ContentItem
  pipelineCalls : List PipeCall
  committedWrite : Option UpdatePayload
deriving DecidableEq, Repr

/-- `App.handleAddItem` (App.tsx lines 84-133): the store create happens
first; on failure the error banner is set and nothing is spawned; on
success exactly one detached pipeline task is spawned for the new item,
and its failure is swallowed by the inner `catch` (no banner, no retry,
no write). -/
def handleAddItem (createResult : Except String ContentItem)
    (o : PipelineOracle) : AddOutcome :=
  match createResult with
  | Except.error _ =>
    { created := none, uiError := true, pipelineTasks := [],
      pipelineCalls := [], committedWrite := none }
  | Except.ok newItem =>
    { created := some newItem, uiError := false, pipelineTasks := [newItem],
      pipelineCalls := (runPipeline newItem o).1,
      committedWrite := (runPipeline newItem o).2 }

/-- A row of the `content_items` table as the client sees it: every
column besides `id` can be absent, because `updateMultipleContentItems`
upserts partial rows. -/
structure StoreRow where
  id : String
  type : Option ContentType := none
  content : Option String := none
  createdAt : Option String := none
  category : Option String := none
  priority : Option Int := none
  tags : Option (List String) := none
  transcription : Option String := none
  summary : Option String := none
  aiAnalysis : Option String := none
  mimeType : Option String := none
deriving DecidableEq, Repr

/-- A supplied (`some`) field of an update overwrites the stored value;
an absent field leaves it unchanged (undefined keys are dropped before
the request is serialized). -/
def overwriteWith (u old : Option α) : Option α :=
  match u with
  | some v => some v
  | none => old

/-- Merge an update row into an existing row: only supplied fields
change, the id is preserved. -/
def applyUpdate (row u : StoreRow) : StoreRow :=
  { id := row.id
    type := overwriteWith u.type row.type
    content := overwriteWith u.content row.content
    createdAt := overwriteWith u.createdAt row.createdAt
    category := overwriteWith u.category row.category
    priority := overwriteWith u.priority row.priority
    tags := overwriteWith u.tags row.tags
    transcription := overwriteWith u.transcription row.transcription
    summary := overwriteWith u.summary row.summary
    aiAnalysis := overwriteWith u.aiAnalysis row.aiAnalysis
    mimeType := overwriteWith u.mimeType row.mimeType }

/-- Row-store upsert of a single row: an existing row with the same id is
updated in place, a missing id is inserted as a new row. -/
def upsertRow (store : List StoreRow) (u : StoreRow) : List StoreRow :=
  if u.id ∈ store.map StoreRow.id then
    store.map (fun r => if r.id = u.id then applyUpdate r u else r)
  else store ++ [u]

/-- `supabaseService.updateMultipleContentItems` (supabaseService, lines
251-255): one `upsert` call over the whole update list; each row updates
or inserts independently. -/
def updateMultipleContentItems (store : List StoreRow)
    (updates : List StoreRow) : List StoreRow :=
  updates.foldl upsertRow store

/-- Look up a row by id (first match). -/
def getRow : List StoreRow → String → Option StoreRow
  | [], _ => none
  | r :: rs, i => if r.id = i then some r else getRow rs i

/-- One element of `organizeContent`'s `organizedItems` response array,
as `handleOrganize` defensively reads it: each field is `some` exactly
when the model returned a value of the proper type for it (`id` a string,
`category` a string, `priority` a parseable integer). -/
structure OrgRow where
  id : Option String := none
  category : Option String := none
  priority : Option Int := none
deriving DecidableEq, Repr

/-- The update list `handleOrganize` builds (DashboardPage.tsx lines
627-642): map each response row to `{id, category, priority}` and keep
only rows whose id is a string. -/
def orgUpdates (rows : List OrgRow) : List StoreRow :=
  rows.filterMap (fun r =>
    r.id.map (fun i =>
      { id := i, category := r.category, priority := r.priority }))

/-- `DashboardPage.handleOrganize` (lines 615-662), from the point where
the `organizeContent` response is available: on error the store is left
unchanged (only an error banner is shown); on success the mapped updates
are sent to `updateMultipleContentItems` when non-empty. -/
def handleOrganize (store : List StoreRow)
    (resp : Except String (List OrgRow)) : List StoreRow :=
  match resp with
  | Except.error _ => store
  | Except.ok rows =>
    let updates := orgUpdates rows
    if updates.isEmpty then store
    else updateMultipleContentItems store updates

/-- Events driving one `subscribeToContentItems` subscription
(supabaseService, lines 259-276): a remote change to the collection, the
unsubscribe call (`removeChannel`), and the completion (success or
failure) of an in-flight `fetchContentItems` by its sequence number. -/
inductive SubEvent
  | change
  | unsub
  | completeOk (fid : Nat)
  | completeErr (fid : Nat)
deriving DecidableEq, Repr

/-- State of one subscription: whether the realtime channel is still
registered, the sequence numbers of fetches started but not completed,
and the next fetch sequence number. -/
structure SubState where
  channelActive : Bool
  inFlight : List Nat
  nextId : Nat
deriving DecidableEq, Repr

/-- State right after `subscribeToContentItems` returns: the channel is
registered and the initial `fetchContentItems().then(callback)` (fetch 0)
is already in flight. -/
def subInit : SubState :=
  { channelActive := true, inFlight := [0], nextId := 1 }

/-- One event step. A `change` starts a new fetch only while the channel
is registered; `unsub` removes the channel and nothing else — it does not
cancel in-flight fetches; a successful fetch completion always delivers
the callback (the `.then(callback)` is unconditional), a failed one
delivers nothing. Returns the new state and the callback deliveries of
this step. -/
def subStep (s : SubState) : SubEvent → SubState × List Nat
  | SubEvent.change =>
    if s.channelActive then
      ({ s with inFlight := s.inFlight ++ [s.nextId], nextId := s.nextId + 1 }, [])
    else (s, [])
  | SubEvent.unsub => ({ s with channelActive := false }, [])
  | SubEvent.completeOk fid =>
    if fid ∈ s.inFlight then
      ({ s with inFlight := s.inFlight.erase fid }, [fid])
    else (s, [])
  | SubEvent.completeErr fid =>
    if fid ∈ s.inFlight then
      ({ s with inFlight := s.inFlight.erase fid }, [])
    else (s, [])

/-- Run a subscription through a sequence of events, collecting every
callback delivery in order. -/
def subRun (s : SubState) : List SubEvent → SubState × List Nat
  | [] => (s, [])
  | e :: es =>
    let step := subStep s e
    let rest := subRun step.1 es
    (rest.1, step.2 ++ rest.2)

theorem jsUniqueFilter_nodup (a : List String) : (jsUniqueFilter a).Nodup := by
  have henum : a.enum.Nodup := (List.nodup_enum_map_fst a).of_map _
  have hfil : (a.enum.filter (fun p => a.indexOf p.2 == p.1)).Nodup :=
    henum.filter _
  refine hfil.map_on ?_
  intro p hp q hq hpq
  have hp' := (List.mem_filter.mp hp).2
  have hq' := (List.mem_filter.mp hq).2
  have hp2 : a.indexOf p.2 = p.1 := by simpa using hp'
  have hq2 : a.indexOf q.2 = q.1 := by simpa using hq'
  have : p.1 = q.1 := by rw [← hp2, ← hq2, hpq]
  exact Prod.ext this hpq

theorem mergeTags_nodup (oldTags newTags : List String) :
    (mergeTags oldTags newTags).Nodup :=
  jsUniqueFilter_nodup _

theorem applyTagOp_nodup (tags : Option (List String))
    (h : (tags.getD []).Nodup) (op : TagOp) :
    ((applyTagOp tags op).getD []).Nodup := by
  cases op with
  | userAdd input =>
    simp only [applyTagOp]
    cases hadd : handleAddTag tags input with
    | none => simpa using h
    | some t =>
      simp only [Option.getD_some]
      unfold handleAddTag at hadd
      split at hadd
      · exact absurd hadd (by simp)
      · split at hadd
        · exact absurd hadd (by simp)
        · rename_i hmem
          have ht : t = tags.getD [] ++ [input.trim.toLower] := by
            simpa using hadd.symm
          subst ht
          rw [List.nodup_append]
          refine ⟨h, List.nodup_singleton _, ?_⟩
          intro x hx hx'
          simp only [List.mem_singleton] at hx'
          subst hx'
          exact hmem hx
  | aiMerge base newTags =>
    simpa [applyTagOp] using mergeTags_nodup base newTags

theorem foldl_tagOps_nodup (ops : List TagOp) :
    ∀ tags : Option (List String), (tags.getD []).Nodup →
      ((ops.foldl applyTagOp tags).getD []).Nodup := by
  induction ops with
  | nil => intro tags h; simpa using h
  | cons op ops ih =>
    intro tags h
    exact ih (applyTagOp tags op) (applyTagOp_nodup tags h op)

/-- C4: after any merge operation on an item's tags — a user tag addition
through the card's tag input, or the pipeline's merge of AI-returned tags
— the resulting tags list has no duplicate (case-sensitive) entries, for
all sequences of tag additions starting from a freshly created item. -/
theorem tags_always_nodup :
    (∀ base newTags, (mergeTags base newTags).Nodup) ∧
    (∀ ops : List TagOp, ((runTagOps ops).getD []).Nodup) := by
  refine ⟨mergeTags_nodup, ?_⟩
  intro ops
  exact foldl_tagOps_nodup ops none (by simp)

/-- C5: `categorizeAndTagContent` called with type `url` or `audio`
always fails with the validation error thrown by the `default` arm, never
returning a (category, tags) result. -/
theorem categorize_rejects_url_audio (item : CatInput)
    (resp : Except String CatResult)
    (h : item.type = ContentType.url ∨ item.type = ContentType.audio) :
    categorizeAndTagContent item resp =
      Except.error (CatError.validation
        ("Unsupported content type for categorization: " ++ item.type.name)) := by
  rcases h with h | h <;> simp [categorizeAndTagContent, h]

/-- Witness for C5 at a concrete URL input. -/
theorem categorize_rejects_url_audio_witness :
    categorizeAndTagContent ⟨ContentType.url, "https://example.com", none⟩
        (Except.ok ⟨"Work", ["a"]⟩) =
      Except.error (CatError.validation
        ("Unsupported content type for categorization: " ++
          ContentType.url.name)) :=
  categorize_rejects_url_audio _ _ (Or.inl rfl)

/-- C8, counterexample: nothing enforces the "at most 4 lowercase tags"
constraint — a schema-valid model response with five tags, one of them
uppercase, is returned unchanged by `categorizeAndTagContent`. -/
theorem categorize_unvalidated_tags_counterexample :
    categorizeAndTagContent ⟨ContentType.text, "Buy milk", none⟩
        (Except.ok ⟨"Work", ["HELLO", "a", "b", "c", "d"]⟩) =
      Except.ok ⟨"Work", ["HELLO", "a", "b", "c", "d"]⟩ ∧
    ¬ ((["HELLO", "a", "b", "c", "d"] : List String).length ≤ 4 ∧
        (["HELLO", "a", "b", "c", "d"] : List String).all
          (fun t => t.toLower == t) = true) :=
  ⟨rfl, by decide⟩

/-- C8 as amended: every successful result of `categorizeAndTagContent`
is exactly the (category, tags) pair parsed from the model response; the
"2-4 relevant lowercase tags" wording lives only in the prompt and the
schema description and is not enforced. -/
theorem categorize_result_is_model_output (item : CatInput)
    (resp : Except String CatResult) (r : CatResult)
    (h : categorizeAndTagContent item resp = Except.ok r) :
    resp = Except.ok r := by
  rcases item with ⟨ty, c, mt⟩
  cases ty <;> cases mt <;> cases resp <;>
    simp_all [categorizeAndTagContent, Except.mapError]

/-- Witness for the amended C8 at a concrete text input. -/
theorem categorize_result_is_model_output_witness :
    (Except.ok (⟨"Personal", ["errand", "shopping"]⟩ : CatResult) :
        Except String CatResult) =
      Except.ok ⟨"Personal", ["errand", "shopping"]⟩ :=
  categorize_result_is_model_output ⟨ContentType.text, "Buy milk", none⟩ _ _ rfl

/-- C1, counterexample: when the transcription model returns the empty
string, the pipeline still commits a write that sets the category, but
the write carries no `transcription` at all — `if (transcription)` treats
the empty transcript as falsy — even though the audio item had no
transcription before. -/
theorem audio_pipeline_empty_transcript_counterexample :
    (ContentItem.mk "a1" ContentType.audio "data:audio/webm;base64,Zm9v"
        "" none none none none none none (some "audio/webm")).transcription
        = none ∧
    (PipelineOracle.mk (Except.ok ()) (Except.ok "") (Except.ok "s")
        (Except.ok ⟨"Personal", ["memo"]⟩) (Except.ok ())).transcript
        = Except.ok "" ∧
    (runPipeline
        (ContentItem.mk "a1" ContentType.audio "data:audio/webm;base64,Zm9v"
          "" none none none none none none (some "audio/webm"))
        (PipelineOracle.mk (Except.ok ()) (Except.ok "") (Except.ok "s")
          (Except.ok ⟨"Personal", ["memo"]⟩) (Except.ok ()))).2 =
      some ⟨"a1", "Personal", ["memo"], none, none⟩ := by
  refine ⟨rfl, rfl, ?_⟩
  rfl

/-- C1 as amended: for every audio item the pipeline calls transcribe
before categorize, and the committed write-back sets the category
returned by the model and sets `transcription` to the produced transcript
whenever that transcript is non-empty (an empty transcript is omitted
from the write-back). -/
theorem audio_pipeline_transcribe_then_categorize
    (item : ContentItem) (o : PipelineOracle) (payload : UpdatePayload)
    (htype : item.type = ContentType.audio)
    (hrun : (runPipeline item o).2 = some payload) :
    (runPipeline item o).1 = [PipeCall.transcribe, PipeCall.categorize] ∧
    (∀ t, o.transcript = Except.ok t → t ≠ "" →
      payload.transcription = some t) ∧
    (∀ r, o.modelCat = Except.ok r → payload.category = r.category) := by
  rcases o with ⟨f, tr, us, mc, w⟩
  simp only [runPipeline, htype] at hrun ⊢
  cases f with
  | error e => simp at hrun
  | ok u =>
    cases tr with
    | error e => simp at hrun
    | ok t =>
      cases mc with
      | error e =>
        simp [pipelineFinish, categorizeAndTagContent, Except.mapError] at hrun
      | ok r =>
        cases w with
        | error e =>
          simp [pipelineFinish, categorizeAndTagContent, Except.mapError] at hrun
        | ok u2 =>
          simp only [pipelineFinish, categorizeAndTagContent,
            Except.mapError, Option.some.injEq] at hrun ⊢
          refine ⟨rfl, ?_, ?_⟩
          · intro t' ht' hne
            have htt : t = t' := by
              simpa using ht'
            subst htt
            rw [← hrun]
            simp [jsTruthy, hne]
          · intro r' hr'
            have hrr : r = r' := by
              simpa using hr'
            subst hrr
            rw [← hrun]

/-- Witness for the amended C1 at a concrete audio item with a non-empty
transcript. -/
theorem audio_pipeline_transcribe_then_categorize_witness :
    (runPipeline
        (ContentItem.mk "a2" ContentType.audio "data:audio/webm;base64,Zm9v"
          "" none none none none none none (some "audio/webm"))
        (PipelineOracle.mk (Except.ok ()) (Except.ok "hello world")
          (Except.ok "s") (Except.ok ⟨"Personal", ["memo"]⟩)
          (Except.ok ()))).1 =
      [PipeCall.transcribe, PipeCall.categorize] ∧
    (∀ t,
      (PipelineOracle.mk (Except.ok ()) (Except.ok "hello world")
          (Except.ok "s") (Except.ok ⟨"Personal", ["memo"]⟩)
          (Except.ok ())).transcript = Except.ok t → t ≠ "" →
      (UpdatePayload.mk "a2" "Personal" ["memo"]
        (some "hello world") none).transcription = some t) ∧
    (∀ r,
      (PipelineOracle.mk (Except.ok ()) (Except.ok "hello world")
          (Except.ok "s") (Except.ok ⟨"Personal", ["memo"]⟩)
          (Except.ok ())).modelCat = Except.ok r →
      (UpdatePayload.mk "a2" "Personal" ["memo"]
        (some "hello world") none).category = r.category) :=
  audio_pipeline_transcribe_then_categorize _ _ _ rfl rfl

/-- C2, counterexample: when the summarization model returns the empty
string for a URL item, the pipeline still commits a write that sets the
category, but the write carries no `summary` — `if (summary)` treats the
empty summary as falsy. -/
theorem url_pipeline_empty_summary_counterexample :
    (PipelineOracle.mk (Except.ok ()) (Except.ok "t") (Except.ok "")
        (Except.ok ⟨"Reference", ["docs"]⟩) (Except.ok ())).urlSummary
        = Except.ok "" ∧
    (runPipeline
        (ContentItem.mk "u1" ContentType.url "https://example.com"
          "" none none none none none none none)
        (PipelineOracle.mk (Except.ok ()) (Except.ok "t") (Except.ok "")
          (Except.ok ⟨"Reference", ["docs"]⟩) (Except.ok ()))).2 =
      some ⟨"u1", "Reference", ["docs"], none, none⟩ := by
  exact ⟨rfl, rfl⟩

/-- C2 as amended: for every URL item the pipeline calls
`summarizeContent` with kind `url` before categorize, and the committed
write-back sets the category returned by the model and includes the
produced summary whenever it is non-empty (an empty summary is omitted
from the write-back). -/
theorem url_pipeline_summarize_then_categorize
    (item : ContentItem) (o : PipelineOracle) (payload : UpdatePayload)
    (htype : item.type = ContentType.url)
    (hrun : (runPipeline item o).2 = some payload) :
    (runPipeline item o).1 =
      [PipeCall.summarize SummarizeKind.url, PipeCall.categorize] ∧
    (∀ s, o.urlSummary = Except.ok s → s ≠ "" →
      payload.summary = some s) ∧
    (∀ r, o.modelCat = Except.ok r → payload.category = r.category) := by
  rcases o with ⟨f, tr, us, mc, w⟩
  simp only [runPipeline, htype] at hrun ⊢
  cases us with
  | error e => simp at hrun
  | ok s =>
    cases mc with
    | error e =>
      simp [pipelineFinish, categorizeAndTagContent, Except.mapError] at hrun
    | ok r =>
      cases w with
      | error e =>
        simp [pipelineFinish, categorizeAndTagContent, Except.mapError] at hrun
      | ok u2 =>
        simp only [pipelineFinish, categorizeAndTagContent,
          Except.mapError, Option.some.injEq] at hrun ⊢
        refine ⟨rfl, ?_, ?_⟩
        · intro s' hs' hne
          have hss : s = s' := by
            simpa using hs'
          subst hss
          rw [← hrun]
          simp [jsTruthy, hne]
        · intro r' hr'
          have hrr : r = r' := by
            simpa using hr'
          subst hrr
          rw [← hrun]

/-- Witness for the amended C2 at a concrete URL item with a non-empty
summary. -/
theorem url_pipeline_summarize_then_categorize_witness :
    (runPipeline
        (ContentItem.mk "u2" ContentType.url "https://example.com"
          "" none none none none none none none)
        (PipelineOracle.mk (Except.ok ()) (Except.ok "t")
          (Except.ok "a page about examples")
          (Except.ok ⟨"Reference", ["docs"]⟩) (Except.ok ()))).1 =
      [PipeCall.summarize SummarizeKind.url, PipeCall.categorize] ∧
    (∀ s,
      (PipelineOracle.mk (Except.ok ()) (Except.ok "t")
          (Except.ok "a page about examples")
          (Except.ok ⟨"Reference", ["docs"]⟩)
          (Except.ok ())).urlSummary = Except.ok s → s ≠ "" →
      (UpdatePayload.mk "u2" "Reference" ["docs"] none
        (some "a page about examples")).summary = some s) ∧
    (∀ r,
      (PipelineOracle.mk (Except.ok ()) (Except.ok "t")
          (Except.ok "a page about examples")
          (Except.ok ⟨"Reference", ["docs"]⟩)
          (Except.ok ())).modelCat = Except.ok r →
      (UpdatePayload.mk "u2" "Reference" ["docs"] none
        (some "a page about examples")).category = r.category) :=
  url_pipeline_summarize_then_categorize _ _ _ rfl rfl

theorem pipelineFinish_calls (newItem contentToAnalyze : ContentItem)
    (t s : Option String) (cb : List PipeCall) (o : PipelineOracle) :
    (pipelineFinish newItem contentToAnalyze t s cb o).1 =
      cb ++ [PipeCall.categorize] := by
  simp only [pipelineFinish]
  split
  · rfl
  · split <;> rfl

theorem runPipeline_calls_nodup (item : ContentItem) (o : PipelineOracle) :
    (runPipeline item o).1.Nodup := by
  unfold runPipeline
  cases htype : item.type with
  | audio =>
    cases o.fetchOk with
    | error e => simp
    | ok u =>
      cases o.transcript with
      | error e => simp
      | ok t => rw [pipelineFinish_calls]; simp
  | url =>
    cases o.urlSummary with
    | error e => simp
    | ok s => rw [pipelineFinish_calls]; simp
  | text => rw [pipelineFinish_calls]; simp
  | image => rw [pipelineFinish_calls]; simp
  | ai_image => rw [pipelineFinish_calls]; simp

/-- C3: a successful create spawns exactly one detached pipeline task;
the create outcome (returned item, UI error banner) is a function of the
create result alone, independent of every pipeline-step outcome; a
pipeline failure commits no write, sets no error banner, and the task
issues each AI call at most once (no retry). -/
theorem create_spawns_one_detached_pipeline
    (c : Except String ContentItem) (o o' : PipelineOracle) :
    ((handleAddItem c o).created = (handleAddItem c o').created ∧
      (handleAddItem c o).uiError = (handleAddItem c o').uiError) ∧
    (∀ item, c = Except.ok item →
      (handleAddItem c o).pipelineTasks = [item] ∧
      (handleAddItem c o).uiError = false) ∧
    (handleAddItem c o).pipelineCalls.Nodup ∧
    (∀ item, c = Except.ok item → (runPipeline item o).2 = none →
      (handleAddItem c o).committedWrite = none) := by
  cases c with
  | error e =>
    refine ⟨⟨rfl, rfl⟩, ?_, ?_, ?_⟩
    · intro item h; cases h
    · simp [handleAddItem]
    · intro item h; cases h
  | ok newItem =>
    refine ⟨⟨rfl, rfl⟩, ?_, ?_, ?_⟩
    · intro item h
      have hi : newItem = item := by simpa using h
      subst hi
      exact ⟨rfl, rfl⟩
    · exact runPipeline_calls_nodup newItem o
    · intro item h hnone
      have hi : newItem = item := by simpa using h
      subst hi
      exact hnone

/-- Witness for C3 at a concrete successful create whose pipeline fails
at the categorization step. -/
theorem create_spawns_one_detached_pipeline_witness :
    ((handleAddItem
        (Except.ok (ContentItem.mk "t1" ContentType.text "Buy milk"
          "" none none none none none none none))
        (PipelineOracle.mk (Except.ok ()) (Except.ok "t") (Except.ok "s")
          (Except.error "quota") (Except.ok ()))).created =
      (handleAddItem
        (Except.ok (ContentItem.mk "t1" ContentType.text "Buy milk"
          "" none none none none none none none))
        (PipelineOracle.mk (Except.ok ()) (Except.ok "t") (Except.ok "s")
          (Except.ok ⟨"Personal", ["errand"]⟩) (Except.ok ()))).created ∧
      (handleAddItem
        (Except.ok (ContentItem.mk "t1" ContentType.text "Buy milk"
          "" none none none none none none none))
        (PipelineOracle.mk (Except.ok ()) (Except.ok "t") (Except.ok "s")
          (Except.error "quota") (Except.ok ()))).uiError =
      (handleAddItem
        (Except.ok (ContentItem.mk "t1" ContentType.text "Buy milk"
          "" none none none none none none none))
        (PipelineOracle.mk (Except.ok ()) (Except.ok "t") (Except.ok "s")
          (Except.ok ⟨"Personal", ["errand"]⟩) (Except.ok ()))).uiError) ∧
    ((handleAddItem
        (Except.ok (ContentItem.mk "t1" ContentType.text "Buy milk"
          "" none none none none none none none))
        (PipelineOracle.mk (Except.ok ()) (Except.ok "t") (Except.ok "s")
          (Except.error "quota") (Except.ok ()))).pipelineTasks =
      [ContentItem.mk "t1" ContentType.text "Buy milk"
        "" none none none none none none none] ∧
     (handleAddItem
        (Except.ok (ContentItem.mk "t1" ContentType.text "Buy milk"
          "" none none none none none none none))
        (PipelineOracle.mk (Except.ok ()) (Except.ok "t") (Except.ok "s")
          (Except.error "quota") (Except.ok ()))).uiError = false) ∧
    (handleAddItem
        (Except.ok (ContentItem.mk "t1" ContentType.text "Buy milk"
          "" none none none none none none none))
        (PipelineOracle.mk (Except.ok ()) (Except.ok "t") (Except.ok "s")
          (Except.error "quota") (Except.ok ()))).pipelineCalls.Nodup ∧
    (handleAddItem
        (Except.ok (ContentItem.mk "t1" ContentType.text "Buy milk"
          "" none none none none none none none))
        (PipelineOracle.mk (Except.ok ()) (Except.ok "t") (Except.ok "s")
          (Except.error "quota") (Except.ok ()))).committedWrite = none := by
  have h := create_spawns_one_detached_pipeline
    (Except.ok (ContentItem.mk "t1" ContentType.text "Buy milk"
      "" none none none none none none none))
    (PipelineOracle.mk (Except.ok ()) (Except.ok "t") (Except.ok "s")
      (Except.error "quota") (Except.ok ()))
    (PipelineOracle.mk (Except.ok ()) (Except.ok "t") (Except.ok "s")
      (Except.ok ⟨"Personal", ["errand"]⟩) (Except.ok ()))
  exact ⟨h.1, h.2.1 _ rfl, h.2.2.1, h.2.2.2 _ rfl rfl⟩

theorem applyUpdate_id (row u : StoreRow) : (applyUpdate row u).id = row.id :=
  rfl

theorem getRow_map_update (store : List StoreRow) (u : StoreRow) (i : String)
    (h : u.id ≠ i) :
    getRow (store.map fun r => if r.id = u.id then applyUpdate r u else r) i =
      getRow store i := by
  induction store with
  | nil => rfl
  | cons r rs ih =>
    simp only [List.map_cons, getRow]
    have hid0 : (if r.id = u.id then applyUpdate r u else r).id = r.id := by
      split <;> rfl
    rw [hid0]
    by_cases hri : r.id = i
    · rw [if_pos hri, if_pos hri]
      have hru : r.id ≠ u.id := by
        intro hc
        exact h (by rw [← hc]; exact hri)
      rw [if_neg hru]
    · rw [if_neg hri, if_neg hri]
      exact ih

theorem getRow_append_single_ne (store : List StoreRow) (u : StoreRow)
    (i : String) (h : u.id ≠ i) :
    getRow (store ++ [u]) i = getRow store i := by
  induction store with
  | nil =>
    show (if u.id = i then some u else getRow [] i) = none
    rw [if_neg h]
    rfl
  | cons r rs ih =>
    simp only [List.cons_append, getRow]
    by_cases hri : r.id = i
    · rw [if_pos hri, if_pos hri]
    · rw [if_neg hri, if_neg hri]
      exact ih

theorem getRow_upsertRow_ne (store : List StoreRow) (u : StoreRow)
    (i : String) (h : u.id ≠ i) :
    getRow (upsertRow store u) i = getRow store i := by
  unfold upsertRow
  split
  · exact getRow_map_update store u i h
  · exact getRow_append_single_ne store u i h

theorem getRow_foldl_ne (updates : List StoreRow) (store : List StoreRow)
    (i : String) (h : ∀ u ∈ updates, u.id ≠ i) :
    getRow (updates.foldl upsertRow store) i = getRow store i := by
  induction updates generalizing store with
  | nil => rfl
  | cons u us ih =>
    simp only [List.foldl_cons]
    rw [ih (upsertRow store u) (fun v hv => h v (List.mem_cons_of_mem _ hv)),
      getRow_upsertRow_ne store u i (h u (List.mem_cons_self _ _))]

theorem ids_upsertRow (store : List StoreRow) (u : StoreRow) (i : String) :
    i ∈ (upsertRow store u).map StoreRow.id ↔
      i ∈ store.map StoreRow.id ∨ i = u.id := by
  unfold upsertRow
  split
  · rename_i hmem
    have hids : (store.map fun r =>
        if r.id = u.id then applyUpdate r u else r).map StoreRow.id =
        store.map StoreRow.id := by
      rw [List.map_map]
      refine List.map_congr_left ?_
      intro r hr
      by_cases hru : r.id = u.id <;> simp [hru, applyUpdate_id]
    rw [hids]
    constructor
    · exact Or.inl
    · rintro (hh | rfl)
      · exact hh
      · exact hmem
  · simp [List.map_append]

theorem ids_foldl (updates : List StoreRow) (store : List StoreRow)
    (i : String) :
    i ∈ (updates.foldl upsertRow store).map StoreRow.id ↔
      i ∈ store.map StoreRow.id ∨ i ∈ updates.map StoreRow.id := by
  induction updates generalizing store with
  | nil => simp
  | cons u us ih =>
    simp only [List.foldl_cons, List.map_cons, List.mem_cons]
    rw [ih, ids_upsertRow]
    tauto

theorem getRow_isSome_iff (store : List StoreRow) (i : String) :
    (getRow store i).isSome = true ↔ i ∈ store.map StoreRow.id := by
  induction store with
  | nil => simp [getRow]
  | cons r rs ih =>
    simp only [getRow, List.map_cons, List.mem_cons]
    by_cases hri : r.id = i
    · simp [hri]
    · have hir : ¬ i = r.id := fun hc => hri hc.symm
      rw [if_neg hri, ih]
      simp [hir]

theorem ids_orgUpdates (rows : List OrgRow) (i : String) :
    i ∈ (orgUpdates rows).map StoreRow.id ↔ some i ∈ rows.map OrgRow.id := by
  unfold orgUpdates
  constructor
  · intro h
    obtain ⟨u, hu, hid⟩ := List.mem_map.mp h
    obtain ⟨g, hg, hgu⟩ := List.mem_filterMap.mp hu
    cases hgid : g.id with
    | none => rw [hgid] at hgu; cases hgu
    | some j =>
      rw [hgid] at hgu
      have hju : j = u.id := by
        have : u = { id := j, category := g.category, priority := g.priority } := by
          simpa using hgu.symm
        rw [this]
      exact List.mem_map.mpr ⟨g, hg, by rw [hgid, hju, hid]⟩
  · intro h
    obtain ⟨g, hg, hgid⟩ := List.mem_map.mp h
    refine List.mem_map.mpr
      ⟨{ id := i, category := g.category, priority := g.priority }, ?_, rfl⟩
    exact List.mem_filterMap.mpr ⟨g, hg, by rw [hgid]; rfl⟩

theorem priority_upsertRow (store : List StoreRow) (u r' : StoreRow)
    (h : r' ∈ upsertRow store u) :
    (∃ r ∈ store, r'.priority = r.priority) ∨ r'.priority = u.priority := by
  unfold upsertRow at h
  split at h
  · obtain ⟨r, hr, hEq⟩ := List.mem_map.mp h
    by_cases hru : r.id = u.id
    · rw [if_pos hru] at hEq
      cases hp : u.priority with
      | some p =>
        right
        rw [← hEq]
        simp [applyUpdate, overwriteWith, hp]
      | none =>
        left
        refine ⟨r, hr, ?_⟩
        rw [← hEq]
        simp [applyUpdate, overwriteWith, hp]
    · rw [if_neg hru] at hEq
      left
      exact ⟨r, hr, by rw [← hEq]⟩
  · rcases List.mem_append.mp h with h1 | h1
    · left
      exact ⟨r', h1, rfl⟩
    · right
      have hu : r' = u := by simpa using h1
      rw [hu]

theorem priority_foldl (updates : List StoreRow) (store : List StoreRow)
    (r' : StoreRow) (h : r' ∈ updates.foldl upsertRow store) :
    (∃ r ∈ store, r'.priority = r.priority) ∨
      (∃ u ∈ updates, r'.priority = u.priority) := by
  induction updates generalizing store with
  | nil =>
    left
    exact ⟨r', by simpa using h, rfl⟩
  | cons u us ih =>
    simp only [List.foldl_cons] at h
    rcases ih (upsertRow store u) h with ⟨r, hr, hp⟩ | ⟨v, hv, hp⟩
    · rcases priority_upsertRow store u r hr with ⟨r0, hr0, hp0⟩ | hp0
      · left
        exact ⟨r0, hr0, hp.trans hp0⟩
      · right
        exact ⟨u, List.mem_cons_self _ _, hp.trans hp0⟩
    · right
      exact ⟨v, List.mem_cons_of_mem _ hv, hp⟩

/-- C6: the batch-organize caller touches exactly the store rows whose
ids appear (as strings) in the response's `organizedItems`: a row whose
id is absent from the response is left unchanged, and every id present in
the response ends up with a row in the store (updated in place or
inserted by the upsert). -/
theorem organize_updates_only_response_ids (store : List StoreRow)
    (rows : List OrgRow) (i : String) :
    ((∀ g ∈ rows, g.id ≠ some i) →
      getRow (handleOrganize store (Except.ok rows)) i = getRow store i) ∧
    (some i ∈ rows.map OrgRow.id →
      (getRow (handleOrganize store (Except.ok rows)) i).isSome = true) := by
  constructor
  · intro h
    simp only [handleOrganize]
    split
    · rfl
    · apply getRow_foldl_ne
      intro u hu hui
      have h1 : i ∈ (orgUpdates rows).map StoreRow.id :=
        List.mem_map.mpr ⟨u, hu, hui⟩
      obtain ⟨g, hg, hgid⟩ := List.mem_map.mp ((ids_orgUpdates rows i).mp h1)
      exact h g hg hgid
  · intro h
    have h1 : i ∈ (orgUpdates rows).map StoreRow.id :=
      (ids_orgUpdates rows i).mpr h
    simp only [handleOrganize]
    split
    · rename_i hempty
      rw [List.isEmpty_iff.mp hempty] at h1
      cases h1
    · rw [getRow_isSome_iff]
      unfold updateMultipleContentItems
      rw [ids_foldl]
      exact Or.inr h1

/-- Witness for C6: a two-row store and a response naming only id "1" —
row "2" is untouched and row "1" is present after the call. -/
theorem organize_updates_only_response_ids_witness :
    getRow (handleOrganize
        [StoreRow.mk "1" none none none none none none none none none none,
          StoreRow.mk "2" none none none none none none none none none none]
        (Except.ok [OrgRow.mk (some "1") (some "Work") (some 3)])) "2" =
      getRow
        [StoreRow.mk "1" none none none none none none none none none none,
          StoreRow.mk "2" none none none none none none none none none none]
        "2" ∧
    (getRow (handleOrganize
        [StoreRow.mk "1" none none none none none none none none none none,
          StoreRow.mk "2" none none none none none none none none none none]
        (Except.ok [OrgRow.mk (some "1") (some "Work") (some 3)])) "1").isSome
      = true := by
  constructor
  · refine (organize_updates_only_response_ids _ _ "2").1 ?_
    intro g hg
    have hgv : g = OrgRow.mk (some "1") (some "Work") (some 3) := by
      simpa using hg
    rw [hgv]
    decide
  · refine (organize_updates_only_response_ids _ _ "1").2 ?_
    decide

/-- C9, counterexample: the model may return a priority outside [1,5] —
here 7 — and `handleOrganize` parses and writes it unchecked, so the item
receives priority 7. -/
theorem organize_priority_out_of_range_counterexample :
    ((getRow (handleOrganize
        [StoreRow.mk "1" none none none none none none none none none none]
        (Except.ok [OrgRow.mk (some "1") (some "Work") (some 7)])) "1").bind
      StoreRow.priority = some 7) ∧
    ¬ ((1 : Int) ≤ 7 ∧ (7 : Int) ≤ 5) := by
  exact ⟨rfl, by decide⟩

/-- C9 as amended: every priority value present after batch organize
either was already on a stored row or is exactly an integer the model
returned in the response — the caller parses it with no range check, so
the requested 1-5 range is not enforced. -/
theorem organize_priority_from_model (store : List StoreRow)
    (rows : List OrgRow) (r' : StoreRow) (p : Int)
    (h1 : r' ∈ handleOrganize store (Except.ok rows))
    (h2 : r'.priority = some p) :
    (∃ r ∈ store, r.priority = some p) ∨ (∃ g ∈ rows, g.priority = some p) := by
  simp only [handleOrganize] at h1
  split at h1
  · left
    exact ⟨r', h1, h2⟩
  · rcases priority_foldl (orgUpdates rows) store r' h1 with
      ⟨r, hr, hp⟩ | ⟨u, hu, hp⟩
    · left
      exact ⟨r, hr, by rw [← hp, h2]⟩
    · obtain ⟨g, hg, hgu⟩ := List.mem_filterMap.mp hu
      cases hgid : g.id with
      | none => rw [hgid] at hgu; cases hgu
      | some j =>
        rw [hgid] at hgu
        have hgu' :
            u = StoreRow.mk j none none none g.category g.priority none
              none none none none := by
          simpa using hgu.symm
        right
        refine ⟨g, hg, ?_⟩
        have hup : u.priority = g.priority := by rw [hgu']
        rw [← hup, ← hp, h2]

/-- Witness for the amended C9: the priority 7 written to row "1" comes
from the model response. -/
theorem organize_priority_from_model_witness :
    (∃ r ∈ [StoreRow.mk "1" none none none none none none none none none
        none], r.priority = some 7) ∨
    (∃ g ∈ [OrgRow.mk (some "1") (some "Work") (some 7)],
      g.priority = some 7) := by
  refine organize_priority_from_model _ _
    (StoreRow.mk "1" none none none (some "Work") (some 7) none none none
      none none) 7 ?_ rfl
  decide

/-- C10: `updateMultipleContentItems` is an upsert — an update row whose
id is missing from the store is inserted (the call does not reject it),
and every updated id is present in the store afterwards. -/
theorem batchUpdate_upserts_missing_ids (store : List StoreRow)
    (updates : List StoreRow) (u : StoreRow) :
    (u ∈ updates →
      (getRow (updateMultipleContentItems store updates) u.id).isSome = true) ∧
    ((∀ r ∈ store, r.id ≠ u.id) →
      updateMultipleContentItems store [u] = store ++ [u]) := by
  constructor
  · intro hu
    unfold updateMultipleContentItems
    rw [getRow_isSome_iff, ids_foldl]
    exact Or.inr (List.mem_map_of_mem _ hu)
  · intro h
    show upsertRow store u = store ++ [u]
    unfold upsertRow
    rw [if_neg]
    intro hmem
    obtain ⟨r, hr, hid⟩ := List.mem_map.mp hmem
    exact h r hr hid

/-- Witness for C10: updating the missing id "9" inserts a new row with
the supplied fields. -/
theorem batchUpdate_upserts_missing_ids_witness :
    (getRow (updateMultipleContentItems
        [StoreRow.mk "1" none none none none none none none none none none]
        [StoreRow.mk "9" none none none (some "Work") (some 3) none none
          none none none])
      (StoreRow.mk "9" none none none (some "Work") (some 3) none none
        none none none).id).isSome = true ∧
    updateMultipleContentItems
        [StoreRow.mk "1" none none none none none none none none none none]
        [StoreRow.mk "9" none none none (some "Work") (some 3) none none
          none none none] =
      [StoreRow.mk "1" none none none none none none none none none none,
        StoreRow.mk "9" none none none (some "Work") (some 3) none none
          none none none] := by
  have h := batchUpdate_upserts_missing_ids
    [StoreRow.mk "1" none none none none none none none none none none]
    [StoreRow.mk "9" none none none (some "Work") (some 3) none none
      none none none]
    (StoreRow.mk "9" none none none (some "Work") (some 3) none none
      none none none)
  refine ⟨h.1 (by decide), h.2 ?_⟩
  intro r hr
  have hrv : r = StoreRow.mk "1" none none none none none none none none
      none none := by
    simpa using hr
  rw [hrv]
  decide

theorem subStep_inactive (s : SubState) (e : SubEvent)
    (h : s.channelActive = false) :
    (subStep s e).1.channelActive = false ∧
    (subStep s e).1.nextId = s.nextId ∧
    (∀ fid, fid ∈ (subStep s e).2 → fid ∈ s.inFlight) ∧
    (∀ fid, fid ∈ (subStep s e).1.inFlight → fid ∈ s.inFlight) := by
  cases e with
  | change => simp [subStep, h]
  | unsub => simp [subStep]
  | completeOk fid =>
    simp only [subStep]
    split
    · rename_i hmem
      refine ⟨h, rfl, ?_, fun f hf => List.mem_of_mem_erase hf⟩
      intro f hf
      have hffid : f = fid := by simpa using hf
      rw [hffid]
      exact hmem
    · exact ⟨h, rfl, by simp, fun f hf => hf⟩
  | completeErr fid =>
    simp only [subStep]
    split
    · exact ⟨h, rfl, by simp, fun f hf => List.mem_of_mem_erase hf⟩
    · exact ⟨h, rfl, by simp, fun f hf => hf⟩

theorem subRun_inactive (es : List SubEvent) (s : SubState)
    (h : s.channelActive = false) :
    (∀ fid, fid ∈ (subRun s es).2 → fid ∈ s.inFlight) ∧
    (subRun s es).1.nextId = s.nextId := by
  induction es generalizing s with
  | nil => exact ⟨by simp [subRun], rfl⟩
  | cons e es ih =>
    obtain ⟨hact, hnext, hdel, hsub⟩ := subStep_inactive s e h
    obtain ⟨ihdel, ihnext⟩ := ih (subStep s e).1 hact
    refine ⟨?_, ?_⟩
    · intro fid hfid
      simp only [subRun] at hfid
      rcases List.mem_append.mp hfid with h1 | h1
      · exact hdel fid h1
      · exact hsub fid (ihdel fid h1)
    · show (subRun (subStep s e).1 es).1.nextId = s.nextId
      rw [ihnext, hnext]

theorem subRun_append_unsub (pre : List SubEvent) (s : SubState) :
    (subRun s (pre ++ [SubEvent.unsub])).1.channelActive = false := by
  induction pre generalizing s with
  | nil => rfl
  | cons e es ih =>
    simp only [List.cons_append, subRun]
    exact ih (subStep s e).1

/-- C7, counterexample: the initial `fetchContentItems().then(callback)`
is not cancelled by unsubscribing — after the unsubscribe is processed
(and even after a further collection change), the completion of fetch 0,
which was in flight at unsubscribe time, still delivers the callback. -/
theorem unsubscribe_inflight_fetch_counterexample :
    (subRun (subRun subInit [SubEvent.unsub]).1
      [SubEvent.change, SubEvent.completeOk 0]).2 = [0] := by
  rfl

/-- C7 as amended: after the unsubscribe handle runs, collection changes
start no new fetch (the fetch counter stays frozen), so the only
deliveries that can still occur are completions of fetches that were
already in flight at unsubscribe time; there is no delivery caused by a
change after unsubscribe. -/
theorem unsubscribe_stops_new_fetches (pre post : List SubEvent) :
    (∀ fid,
      fid ∈ (subRun (subRun subInit (pre ++ [SubEvent.unsub])).1 post).2 →
      fid ∈ (subRun subInit (pre ++ [SubEvent.unsub])).1.inFlight) ∧
    (subRun (subRun subInit (pre ++ [SubEvent.unsub])).1 post).1.nextId =
      (subRun subInit (pre ++ [SubEvent.unsub])).1.nextId :=
  subRun_inactive post _ (subRun_append_unsub pre subInit)

/-- Witness for the amended C7: the one delivery possible after an
immediate unsubscribe comes from fetch 0, which was in flight when the
unsubscribe ran, and no new fetch is started afterwards. -/
theorem unsubscribe_stops_new_fetches_witness :
    0 ∈ (subRun subInit ([] ++ [SubEvent.unsub])).1.inFlight ∧
    (subRun (subRun subInit ([] ++ [SubEvent.unsub])).1
        [SubEvent.change, SubEvent.completeOk 0]).1.nextId =
      (subRun subInit ([] ++ [SubEvent.unsub])).1.nextId := by
  have h := unsubscribe_stops_new_fetches []
    [SubEvent.change, SubEvent.completeOk 0]
  exact ⟨h.1 0 (by decide), h.2⟩

end Diary
